import Mathlib

/-!
Verification of the UK Student Budget Planner simulation engine
(financial_projections.py).

The numeric model is the real numbers: every Python float value is modelled
as a real number, and numpy's sqrt(52) is modelled as Real.sqrt 52.

Randomness is modelled by injection: a draw np.random.normal(loc, scale)
is modelled as loc + scale * z, where z is the corresponding entry of a
stream of standard-normal variates supplied as an argument.  The code
performs three draws per simulated week (spending, ISA growth rate, LISA
growth rate), so a stream record carries three week-indexed streams.

Python list indexing and in-place assignment are modelled operationally:
reading l[i] and assigning l[i] = x are Option-valued (none models the
IndexError raised when the index is out of range), so run_single_simulation
is an Option-valued function and the failure on a non-positive week count
is observable.
-/

noncomputable section

namespace FinancialProjections

/-- One draw np.random.normal(loc, scale), modelled as loc + scale * z with
z the next standard-normal variate of the injected stream. -/
def normalDraw (loc scale z : ℝ) : ℝ := loc + scale * z

/-- The three week-indexed streams of standard-normal variates consumed by
one simulation run: zs for the weekly-spending draw, zi for the ISA growth
draw, zl for the LISA growth draw of each week. -/
structure DrawStreams where
  zs : ℕ → ℝ
  zi : ℕ → ℝ
  zl : ℕ → ℝ

/-- The configuration of one simulation run: the fifteen arguments of
run_single_simulation, with the same names.  n_weeks is a Python int,
modelled as an integer (it may be non-positive). -/
structure SimConfig where
  current_account_balance_now : ℝ
  savings_account_balance_now : ℝ
  savings_account_interest : ℝ
  isa_balance_now : ℝ
  isa_stdev : ℝ
  isa_mean : ℝ
  isa_weekly_payment : ℝ
  lisa_balance_now : ℝ
  lisa_stdev : ℝ
  lisa_mean : ℝ
  lisa_weekly_payment : ℝ
  weekly_spendings_mean : ℝ
  weekly_spendings_stdev : ℝ
  annual_inflow : ℝ
  n_weeks : ℤ

/-- The dictionary returned by run_single_simulation: one week-indexed list
of balances per account, with the dictionary keys as field names. -/
structure Trajectory where
  savings_account : List ℝ
  current_account : List ℝ
  isa : List ℝ
  lisa : List ℝ

/-- Python list read l[i] for a non-negative index: some value when the
index is in range, none for the IndexError. -/
def pyListGet (l : List ℝ) (i : ℕ) : Option ℝ := l[i]?

/-- Python list assignment l[i] = x for a non-negative index: the updated
list when the index is in range, none for the IndexError. -/
def pyListSet (l : List ℝ) (i : ℕ) (x : ℝ) : Option (List ℝ) :=
  if i < l.length then some (l.set i x) else none

/-- The body of the weekly loop of run_single_simulation, acting on the four
lists for one value of week (the statements in source order, each read and
each assignment through the Python list model). -/
def weekStep (cfg : SimConfig) (Z : DrawStreams) (week : ℕ) (st : Trajectory) :
    Option Trajectory := do
  let sPrev ← pyListGet st.savings_account (week - 1)
  let sav1 ← pyListSet st.savings_account week
      (sPrev + cfg.annual_inflow / 52 -
        normalDraw cfg.weekly_spendings_mean cfg.weekly_spendings_stdev (Z.zs week))
  let sMid ← pyListGet sav1 week
  let sav2 ← pyListSet sav1 week
      (sMid + sMid * (cfg.savings_account_interest / 100) / 52)
  let cPrev ← pyListGet st.current_account (week - 1)
  let cur1 ← pyListSet st.current_account week cPrev
  let iPrev ← pyListGet st.isa (week - 1)
  let isa1 ← pyListSet st.isa week (iPrev + cfg.isa_weekly_payment)
  let iMid ← pyListGet isa1 week
  let isa2 ← pyListSet isa1 week
      (iMid + iMid * normalDraw (cfg.isa_mean / 100 / 52)
        (cfg.isa_stdev / 100 / Real.sqrt 52) (Z.zi week))
  let lPrev ← pyListGet st.lisa (week - 1)
  let lisa1 ← pyListSet st.lisa week (lPrev + cfg.lisa_weekly_payment * 1.25)
  let lMid ← pyListGet lisa1 week
  let lisa2 ← pyListSet lisa1 week
      (lMid + lMid * normalDraw (cfg.lisa_mean / 100 / 52)
        (cfg.lisa_stdev / 100 / Real.sqrt 52) (Z.zl week))
  pure ⟨sav2, cur1, isa2, lisa2⟩

/-- The loop for week in range(1, n_weeks), as a recursion on the number of
iterations: runWeeks cfg Z st k executes the body for week = 1, ..., k in
ascending order starting from state st. -/
def runWeeks (cfg : SimConfig) (Z : DrawStreams) (st : Trajectory) : ℕ → Option Trajectory
  | 0 => some st
  | k + 1 => runWeeks cfg Z st k >>= weekStep cfg Z (k + 1)

/-- run_single_simulation: initialise the four lists of length n_weeks to
zeros (an empty list when n_weeks is non-positive, as in Python), assign the
week-0 entries to the initial balances in source order (lisa, savings,
current, isa), then run the weekly loop for week = 1, ..., n_weeks - 1. -/
def run_single_simulation (cfg : SimConfig) (Z : DrawStreams) : Option Trajectory := do
  let len := cfg.n_weeks.toNat
  let lisa0 ← pyListSet (List.replicate len 0) 0 cfg.lisa_balance_now
  let sav0 ← pyListSet (List.replicate len 0) 0 cfg.savings_account_balance_now
  let cur0 ← pyListSet (List.replicate len 0) 0 cfg.current_account_balance_now
  let isa0 ← pyListSet (List.replicate len 0) 0 cfg.isa_balance_now
  runWeeks cfg Z ⟨sav0, cur0, isa0, lisa0⟩ (len - 1)

/-- Closed-form savings-account balance at a given week: week 0 is the
initial balance; each later week adds annual_inflow / 52, subtracts the
spending draw, and then adds interest computed on the already-updated
balance. -/
def savingsAt (cfg : SimConfig) (Z : DrawStreams) : ℕ → ℝ
  | 0 => cfg.savings_account_balance_now
  | w + 1 =>
    let pre := savingsAt cfg Z w + cfg.annual_inflow / 52 -
      normalDraw cfg.weekly_spendings_mean cfg.weekly_spendings_stdev (Z.zs (w + 1))
    pre + pre * (cfg.savings_account_interest / 100) / 52

/-- Closed-form current-account balance at a given week: each week copies
the previous week's balance. -/
def currentAt (cfg : SimConfig) : ℕ → ℝ
  | 0 => cfg.current_account_balance_now
  | w + 1 => currentAt cfg w

/-- Closed-form ISA balance at a given week: each later week adds the weekly
payment and then applies the drawn growth rate to the post-contribution
balance. -/
def isaAt (cfg : SimConfig) (Z : DrawStreams) : ℕ → ℝ
  | 0 => cfg.isa_balance_now
  | w + 1 =>
    let pre := isaAt cfg Z w + cfg.isa_weekly_payment
    pre + pre * normalDraw (cfg.isa_mean / 100 / 52)
      (cfg.isa_stdev / 100 / Real.sqrt 52) (Z.zi (w + 1))

/-- Closed-form LISA balance at a given week: each later week adds 1.25
times the weekly payment and then applies the drawn growth rate to the
post-contribution balance. -/
def lisaAt (cfg : SimConfig) (Z : DrawStreams) : ℕ → ℝ
  | 0 => cfg.lisa_balance_now
  | w + 1 =>
    let pre := lisaAt cfg Z w + cfg.lisa_weekly_payment * 1.25
    pre + pre * normalDraw (cfg.lisa_mean / 100 / 52)
      (cfg.lisa_stdev / 100 / Real.sqrt 52) (Z.zl (w + 1))

/-- The trajectory in closed form: each account's list holds the recurrence
values for weeks 0, ..., n_weeks - 1. -/
def trajOf (cfg : SimConfig) (Z : DrawStreams) : Trajectory :=
  ⟨(List.range cfg.n_weeks.toNat).map (savingsAt cfg Z),
   (List.range cfg.n_weeks.toNat).map (currentAt cfg),
   (List.range cfg.n_weeks.toNat).map (isaAt cfg Z),
   (List.range cfg.n_weeks.toNat).map (lisaAt cfg Z)⟩

/-- Python negative indexing l[-1] on the per-account lists: the last
element.  The lists it is applied to here always have length n_weeks with
n_weeks at least 1, so the default for the empty list is never reached
under the theorems' hypotheses. -/
def finalBalance (l : List ℝ) : ℝ := l.getLast?.getD 0

/-- The list current_and_savings_final of the ensemble aggregation: per run,
the sum of the final savings-account and current-account balances. -/
def current_and_savings_final (results : List Trajectory) : List ℝ :=
  results.map fun t => finalBalance t.savings_account + finalBalance t.current_account

/-- The list total_final of the ensemble aggregation: per run, the grand
total of all four accounts' final balances. -/
def total_final (results : List Trajectory) : List ℝ :=
  results.map fun t => finalBalance t.savings_account + finalBalance t.current_account +
    finalBalance t.isa + finalBalance t.lisa

/-- np.mean over a list of reals. -/
def listMean (vals : List ℝ) : ℝ := vals.sum / vals.length

/-- The fraction len(arr[arr < ref]) / n computed for the histogram titles:
the number of entries strictly below the reference divided by the number of
runs (the code reports it multiplied by 100 as a percentage). -/
def fracBelow (vals : List ℝ) (ref : ℝ) : ℝ :=
  ((vals.filter fun v => decide (v < ref)).length : ℝ) / (vals.length : ℝ)

/-- total_start: the sum of all four initial balances, the reference value
of the grand-total histogram. -/
def total_start (cfg : SimConfig) : ℝ :=
  cfg.current_account_balance_now + cfg.savings_account_balance_now +
    cfg.isa_balance_now + cfg.lisa_balance_now

/-- Closed-form compound growth for the ISA under zero variance: iterate
balance to (balance + isa_weekly_payment) * (1 + isa_mean / 100 / 52)
starting from isa_balance_now, as the zero-variance-collapse property
states it. -/
def isaClosed (cfg : SimConfig) : ℕ → ℝ
  | 0 => cfg.isa_balance_now
  | w + 1 => (isaClosed cfg w + cfg.isa_weekly_payment) * (1 + cfg.isa_mean / 100 / 52)

/-- The all-zero draw streams, used to instantiate theorems at concrete
inputs. -/
def Z0 : DrawStreams := ⟨fun _ => 0, fun _ => 0, fun _ => 0⟩

/-- A concrete configuration: the hardcoded defaults of simulate in the
source (fields in declaration order: current 100, savings 1000, interest 4,
ISA 1000 with stdev 12, mean 8, payment 10, LISA 1000 with stdev 8, mean 4,
payment 10, spending mean 300, stdev 100, inflow 16000, 52 weeks). -/
def cfgW : SimConfig := ⟨100, 1000, 4, 1000, 12, 8, 10, 1000, 8, 4, 10, 300, 100, 16000, 52⟩

/-- cfgW with every standard deviation set to zero. -/
def cfg6 : SimConfig := ⟨100, 1000, 4, 1000, 0, 8, 10, 1000, 0, 4, 10, 300, 0, 16000, 52⟩

/-- The concrete scenario of the testable-properties section: initial
balances 100, 1000, 1000, 1000, every rate, payment, mean, standard
deviation and inflow zero, five weeks. -/
def cfg7 : SimConfig := ⟨100, 1000, 0, 1000, 0, 0, 0, 1000, 0, 0, 0, 0, 0, 0, 5⟩

/-- cfgW with a week count of zero. -/
def cfgZeroWeeks : SimConfig := ⟨100, 1000, 4, 1000, 12, 8, 10, 1000, 8, 4, 10, 300, 100, 16000, 0⟩

/-- A concrete one-week trajectory, used to instantiate ensemble statistics
at a concrete input. -/
def tW : Trajectory := ⟨[0], [0], [0], [0]⟩

/-- Intermediate state of one account's list after the loop has processed
weeks 1, ..., k: entries up to index k hold the recurrence values, the rest
still hold the initial zeros. -/
def stateList (f : ℕ → ℝ) (len k : ℕ) : List ℝ :=
  (List.range len).map (fun i => if i ≤ k then f i else 0)

theorem length_stateList (f : ℕ → ℝ) (len k : ℕ) : (stateList f len k).length = len := by
  simp [stateList]

theorem getElem?_stateList (f : ℕ → ℝ) (len k i : ℕ) :
    (stateList f len k)[i]? = if i < len then some (if i ≤ k then f i else 0) else none := by
  by_cases h : i < len
  · simp [stateList, List.getElem?_map, List.getElem?_range h, h]
  · rw [List.getElem?_eq_none (by rw [length_stateList]; omega)]
    simp [h]

theorem replicate_set_zero (f : ℕ → ℝ) (len : ℕ) (h : 0 < len) :
    (List.replicate len (0 : ℝ)).set 0 (f 0) = stateList f len 0 := by
  apply List.ext_getElem?
  intro i
  rw [getElem?_stateList, List.getElem?_set]
  by_cases hi : i < len
  · by_cases hz : i = 0
    · subst hz; simp [h, hi]
    · simp [hi, hz, List.getElem?_replicate, Nat.le_zero, eq_comm]
  · simp only [hi, if_false, List.getElem?_replicate]
    split_ifs <;> first | rfl | omega

theorem stateList_set_succ (f : ℕ → ℝ) (len k : ℕ) (h : k + 1 < len) :
    (stateList f len k).set (k + 1) (f (k + 1)) = stateList f len (k + 1) := by
  apply List.ext_getElem?
  intro i
  rw [List.getElem?_set, getElem?_stateList, getElem?_stateList, length_stateList]
  by_cases hik : k + 1 = i
  · subst hik; simp [h]
  · by_cases hi : i < len
    · simp only [hik, if_false, hi, if_true]
      congr 1
      by_cases hk2 : i ≤ k
      · rw [if_pos hk2, if_pos (by omega)]
      · rw [if_neg hk2, if_neg (by omega)]
    · simp [hik, hi]

theorem stateList_last (f : ℕ → ℝ) (len : ℕ) :
    stateList f len (len - 1) = (List.range len).map f := by
  unfold stateList
  apply List.map_congr_left
  intro i hi
  rw [List.mem_range] at hi
  simp [Nat.le_sub_one_of_lt hi]

theorem weekStep_state (cfg : SimConfig) (Z : DrawStreams) (len k : ℕ) (h : k + 1 < len) :
    weekStep cfg Z (k + 1)
      ⟨stateList (savingsAt cfg Z) len k, stateList (currentAt cfg) len k,
       stateList (isaAt cfg Z) len k, stateList (lisaAt cfg Z) len k⟩
    = some
      ⟨stateList (savingsAt cfg Z) len (k + 1), stateList (currentAt cfg) len (k + 1),
       stateList (isaAt cfg Z) len (k + 1), stateList (lisaAt cfg Z) len (k + 1)⟩ := by
  have hk : k < len := by omega
  have hsucc : k + 1 - 1 = k := by omega
  simp only [weekStep, hsucc, pyListGet, pyListSet, getElem?_stateList, length_stateList,
    List.length_set, List.getElem?_set, List.set_set, hk, h, le_refl, if_true, ite_true,
    if_pos, Option.bind_eq_bind, Option.some_bind, Option.pure_def]
  rw [← stateList_set_succ (savingsAt cfg Z) len k h, ← stateList_set_succ (currentAt cfg) len k h,
    ← stateList_set_succ (isaAt cfg Z) len k h, ← stateList_set_succ (lisaAt cfg Z) len k h]
  simp only [savingsAt, currentAt, isaAt, lisaAt]

theorem runWeeks_state (cfg : SimConfig) (Z : DrawStreams) (len : ℕ) :
    ∀ k, k < len →
      runWeeks cfg Z
        ⟨stateList (savingsAt cfg Z) len 0, stateList (currentAt cfg) len 0,
         stateList (isaAt cfg Z) len 0, stateList (lisaAt cfg Z) len 0⟩ k
      = some
        ⟨stateList (savingsAt cfg Z) len k, stateList (currentAt cfg) len k,
         stateList (isaAt cfg Z) len k, stateList (lisaAt cfg Z) len k⟩ := by
  intro k
  induction k with
  | zero => intro _; rfl
  | succ k ih =>
    intro hk
    rw [runWeeks, ih (by omega)]
    simpa using weekStep_state cfg Z len k hk

/-- The bridge: for a positive week count, run_single_simulation succeeds and
returns exactly the closed-form trajectory. -/
theorem run_single_simulation_eq (cfg : SimConfig) (Z : DrawStreams)
    (h : 1 ≤ cfg.n_weeks) :
    run_single_simulation cfg Z = some (trajOf cfg Z) := by
  have hlen : 0 < cfg.n_weeks.toNat := by omega
  have hset : ∀ x : ℝ, pyListSet (List.replicate cfg.n_weeks.toNat 0) 0 x
      = some ((List.replicate cfg.n_weeks.toNat (0 : ℝ)).set 0 x) := by
    intro x
    simp [pyListSet, hlen]
  rw [run_single_simulation]
  simp only [hset, Option.bind_eq_bind, Option.some_bind]
  rw [show (List.replicate cfg.n_weeks.toNat (0 : ℝ)).set 0 cfg.lisa_balance_now
        = stateList (lisaAt cfg Z) cfg.n_weeks.toNat 0 from
      replicate_set_zero (lisaAt cfg Z) _ hlen,
    show (List.replicate cfg.n_weeks.toNat (0 : ℝ)).set 0 cfg.savings_account_balance_now
        = stateList (savingsAt cfg Z) cfg.n_weeks.toNat 0 from
      replicate_set_zero (savingsAt cfg Z) _ hlen,
    show (List.replicate cfg.n_weeks.toNat (0 : ℝ)).set 0 cfg.current_account_balance_now
        = stateList (currentAt cfg) cfg.n_weeks.toNat 0 from
      replicate_set_zero (currentAt cfg) _ hlen,
    show (List.replicate cfg.n_weeks.toNat (0 : ℝ)).set 0 cfg.isa_balance_now
        = stateList (isaAt cfg Z) cfg.n_weeks.toNat 0 from
      replicate_set_zero (isaAt cfg Z) _ hlen,
    runWeeks_state cfg Z cfg.n_weeks.toNat (cfg.n_weeks.toNat - 1) (by omega)]
  rw [trajOf, ← stateList_last (savingsAt cfg Z), ← stateList_last (currentAt cfg),
    ← stateList_last (isaAt cfg Z), ← stateList_last (lisaAt cfg Z)]

theorem trajOf_savings (cfg : SimConfig) (Z : DrawStreams) (w : ℕ) (hw : w < cfg.n_weeks.toNat) :
    (trajOf cfg Z).savings_account[w]? = some (savingsAt cfg Z w) := by
  simp [trajOf, List.getElem?_map, List.getElem?_range hw]

theorem trajOf_current (cfg : SimConfig) (Z : DrawStreams) (w : ℕ) (hw : w < cfg.n_weeks.toNat) :
    (trajOf cfg Z).current_account[w]? = some (currentAt cfg w) := by
  simp [trajOf, List.getElem?_map, List.getElem?_range hw]

theorem trajOf_isa (cfg : SimConfig) (Z : DrawStreams) (w : ℕ) (hw : w < cfg.n_weeks.toNat) :
    (trajOf cfg Z).isa[w]? = some (isaAt cfg Z w) := by
  simp [trajOf, List.getElem?_map, List.getElem?_range hw]

theorem trajOf_lisa (cfg : SimConfig) (Z : DrawStreams) (w : ℕ) (hw : w < cfg.n_weeks.toNat) :
    (trajOf cfg Z).lisa[w]? = some (lisaAt cfg Z w) := by
  simp [trajOf, List.getElem?_map, List.getElem?_range hw]

theorem currentAt_eq (cfg : SimConfig) : ∀ w, currentAt cfg w = cfg.current_account_balance_now := by
  intro w
  induction w with
  | zero => rfl
  | succ w ih => rw [currentAt, ih]

/-- C1: for a run with at least one week, the savings balance at any week
1 ≤ w ≤ n_weeks - 1 is the previous week's balance plus annual_inflow / 52
minus the spending draw from Normal(weekly_spendings_mean,
weekly_spendings_stdev), with the interest increment
balance * (savings_account_interest / 100) / 52 added to that already
updated post-inflow, post-spend balance, not to the previous week's
balance. -/
theorem claim_C1_savings_update (cfg : SimConfig) (Z : DrawStreams) (w : ℕ)
    (h1 : 1 ≤ cfg.n_weeks) (hw1 : 1 ≤ w) (hw2 : w ≤ cfg.n_weeks.toNat - 1)
    (t : Trajectory) (ht : run_single_simulation cfg Z = some t)
    (prev : ℝ) (hprev : t.savings_account[w - 1]? = some prev) :
    t.savings_account[w]? = some
      ((prev + cfg.annual_inflow / 52 -
          normalDraw cfg.weekly_spendings_mean cfg.weekly_spendings_stdev (Z.zs w)) +
       (prev + cfg.annual_inflow / 52 -
          normalDraw cfg.weekly_spendings_mean cfg.weekly_spendings_stdev (Z.zs w)) *
         (cfg.savings_account_interest / 100) / 52) := by
  have hlen : 0 < cfg.n_weeks.toNat := by omega
  rw [run_single_simulation_eq cfg Z h1] at ht
  have htt := Option.some.inj ht
  subst htt
  rw [trajOf_savings cfg Z (w - 1) (by omega)] at hprev
  have hp := Option.some.inj hprev
  obtain ⟨u, rfl⟩ : ∃ u, w = u + 1 := ⟨w - 1, by omega⟩
  rw [trajOf_savings cfg Z (u + 1) (by omega)]
  simp only [Nat.add_sub_cancel] at hp
  rw [savingsAt, ← hp]

/-- C2: for a run with at least one week, the ISA balance at any week
1 ≤ w ≤ n_weeks - 1 is the previous week's balance plus isa_weekly_payment,
then incremented by that post-contribution balance multiplied by a draw
from Normal(isa_mean / 100 / 52, isa_stdev / 100 / sqrt 52). -/
theorem claim_C2_isa_update (cfg : SimConfig) (Z : DrawStreams) (w : ℕ)
    (h1 : 1 ≤ cfg.n_weeks) (hw1 : 1 ≤ w) (hw2 : w ≤ cfg.n_weeks.toNat - 1)
    (t : Trajectory) (ht : run_single_simulation cfg Z = some t)
    (prev : ℝ) (hprev : t.isa[w - 1]? = some prev) :
    t.isa[w]? = some
      ((prev + cfg.isa_weekly_payment) +
       (prev + cfg.isa_weekly_payment) *
         normalDraw (cfg.isa_mean / 100 / 52) (cfg.isa_stdev / 100 / Real.sqrt 52) (Z.zi w)) := by
  have hlen : 0 < cfg.n_weeks.toNat := by omega
  rw [run_single_simulation_eq cfg Z h1] at ht
  have htt := Option.some.inj ht
  subst htt
  rw [trajOf_isa cfg Z (w - 1) (by omega)] at hprev
  have hp := Option.some.inj hprev
  obtain ⟨u, rfl⟩ : ∃ u, w = u + 1 := ⟨w - 1, by omega⟩
  rw [trajOf_isa cfg Z (u + 1) (by omega)]
  simp only [Nat.add_sub_cancel] at hp
  rw [isaAt, ← hp]

/-- C3: for a run with at least one week, the LISA balance at any week
1 ≤ w ≤ n_weeks - 1 is the previous week's balance plus
lisa_weekly_payment * 1.25 (a 25 percent matching bonus atop the user's own
contribution), then incremented by that post-contribution balance
multiplied by a draw from Normal(lisa_mean / 100 / 52,
lisa_stdev / 100 / sqrt 52). -/
theorem claim_C3_lisa_update (cfg : SimConfig) (Z : DrawStreams) (w : ℕ)
    (h1 : 1 ≤ cfg.n_weeks) (hw1 : 1 ≤ w) (hw2 : w ≤ cfg.n_weeks.toNat - 1)
    (t : Trajectory) (ht : run_single_simulation cfg Z = some t)
    (prev : ℝ) (hprev : t.lisa[w - 1]? = some prev) :
    t.lisa[w]? = some
      ((prev + cfg.lisa_weekly_payment * 1.25) +
       (prev + cfg.lisa_weekly_payment * 1.25) *
         normalDraw (cfg.lisa_mean / 100 / 52) (cfg.lisa_stdev / 100 / Real.sqrt 52) (Z.zl w)) := by
  have hlen : 0 < cfg.n_weeks.toNat := by omega
  rw [run_single_simulation_eq cfg Z h1] at ht
  have htt := Option.some.inj ht
  subst htt
  rw [trajOf_lisa cfg Z (w - 1) (by omega)] at hprev
  have hp := Option.some.inj hprev
  obtain ⟨u, rfl⟩ : ∃ u, w = u + 1 := ⟨w - 1, by omega⟩
  rw [trajOf_lisa cfg Z (u + 1) (by omega)]
  simp only [Nat.add_sub_cancel] at hp
  rw [lisaAt, ← hp]

/-- C4: for any configuration with at least one week and any draws, every
week's current-account entry of the returned trajectory equals
current_account_balance_now: the current account never changes. -/
theorem claim_C4_current_invariant (cfg : SimConfig) (Z : DrawStreams)
    (h1 : 1 ≤ cfg.n_weeks) (t : Trajectory) (ht : run_single_simulation cfg Z = some t) :
    ∀ w < cfg.n_weeks.toNat, t.current_account[w]? = some cfg.current_account_balance_now := by
  intro w hw
  rw [run_single_simulation_eq cfg Z h1] at ht
  have htt := Option.some.inj ht
  subst htt
  rw [trajOf_current cfg Z w hw, currentAt_eq]

/-- C5: for any configuration with at least one week and any draws, the
week-0 entry of each of the four trajectories equals the configured initial
balance of that account. -/
theorem claim_C5_week0 (cfg : SimConfig) (Z : DrawStreams)
    (h1 : 1 ≤ cfg.n_weeks) (t : Trajectory) (ht : run_single_simulation cfg Z = some t) :
    t.savings_account[0]? = some cfg.savings_account_balance_now ∧
    t.current_account[0]? = some cfg.current_account_balance_now ∧
    t.isa[0]? = some cfg.isa_balance_now ∧
    t.lisa[0]? = some cfg.lisa_balance_now := by
  have hlen : 0 < cfg.n_weeks.toNat := by omega
  rw [run_single_simulation_eq cfg Z h1] at ht
  have htt := Option.some.inj ht
  subst htt
  exact ⟨trajOf_savings cfg Z 0 hlen, trajOf_current cfg Z 0 hlen,
    trajOf_isa cfg Z 0 hlen, trajOf_lisa cfg Z 0 hlen⟩

/-- C9: the weekly update is a deterministic function of the configuration,
the previous balances and the injected draws: two invocations of
run_single_simulation that consume identical draw streams produce identical
trajectories. -/
theorem claim_C9_determinism (cfg : SimConfig) (Z₁ Z₂ : DrawStreams) (hZ : Z₁ = Z₂)
    (t₁ t₂ : Trajectory) (h₁ : run_single_simulation cfg Z₁ = some t₁)
    (h₂ : run_single_simulation cfg Z₂ = some t₂) : t₁ = t₂ := by
  subst hZ
  rw [h₁] at h₂
  exact Option.some.inj h₂

theorem run_single_simulation_none (cfg : SimConfig) (Z : DrawStreams)
    (h : cfg.n_weeks ≤ 0) : run_single_simulation cfg Z = none := by
  have hlen : cfg.n_weeks.toNat = 0 := by omega
  rw [run_single_simulation]
  simp [hlen, pyListSet]

/-- C10: for a non-positive week count the simulation fails (the Python
code raises IndexError assigning the week-0 initial balance to a
zero-length list) and returns no trajectory at all. -/
theorem claim_C10_nonpositive_weeks (cfg : SimConfig) (Z : DrawStreams)
    (h : cfg.n_weeks ≤ 0) : run_single_simulation cfg Z = none :=
  run_single_simulation_none cfg Z h

theorem savingsAt_zero_stdev (cfg : SimConfig) (hs : cfg.weekly_spendings_stdev = 0)
    (Z Z' : DrawStreams) : ∀ w, savingsAt cfg Z w = savingsAt cfg Z' w := by
  intro w
  induction w with
  | zero => rfl
  | succ w ih => rw [savingsAt, savingsAt, ih]; simp [normalDraw, hs]

theorem isaAt_zero_stdev (cfg : SimConfig) (hi : cfg.isa_stdev = 0) (Z : DrawStreams) :
    ∀ w, isaAt cfg Z w = isaClosed cfg w := by
  intro w
  induction w with
  | zero => rfl
  | succ w ih => rw [isaAt, isaClosed, ih]; simp [normalDraw, hi]; ring

theorem lisaAt_zero_stdev (cfg : SimConfig) (hl : cfg.lisa_stdev = 0)
    (Z Z' : DrawStreams) : ∀ w, lisaAt cfg Z w = lisaAt cfg Z' w := by
  intro w
  induction w with
  | zero => rfl
  | succ w ih => rw [lisaAt, lisaAt, ih]; simp [normalDraw, hl]

theorem trajOf_zero_var (cfg : SimConfig) (hi : cfg.isa_stdev = 0) (hl : cfg.lisa_stdev = 0)
    (hs : cfg.weekly_spendings_stdev = 0) (Z Z' : DrawStreams) :
    trajOf cfg Z = trajOf cfg Z' := by
  have h1 : savingsAt cfg Z = savingsAt cfg Z' := funext (savingsAt_zero_stdev cfg hs Z Z')
  have h2 : isaAt cfg Z = isaAt cfg Z' := by
    funext w
    rw [isaAt_zero_stdev cfg hi Z w, isaAt_zero_stdev cfg hi Z' w]
  have h3 : lisaAt cfg Z = lisaAt cfg Z' := funext (lisaAt_zero_stdev cfg hl Z Z')
  rw [trajOf, trajOf, h1, h2, h3]

/-- C6: with all three standard deviations zero the simulation is the same
for every sequence of draws, and the ISA balance at every week equals the
closed-form compound-growth iteration of balance to
(balance + isa_weekly_payment) * (1 + isa_mean / 100 / 52) starting from
isa_balance_now. -/
theorem claim_C6_zero_variance (cfg : SimConfig) (hi : cfg.isa_stdev = 0)
    (hl : cfg.lisa_stdev = 0) (hs : cfg.weekly_spendings_stdev = 0) :
    (∀ Z Z' : DrawStreams, run_single_simulation cfg Z = run_single_simulation cfg Z') ∧
    (∀ (Z : DrawStreams) (t : Trajectory), run_single_simulation cfg Z = some t →
      ∀ w < cfg.n_weeks.toNat, t.isa[w]? = some (isaClosed cfg w)) := by
  constructor
  · intro Z Z'
    rcases le_or_lt 1 cfg.n_weeks with hpos | hneg
    · rw [run_single_simulation_eq cfg Z hpos, run_single_simulation_eq cfg Z' hpos,
        trajOf_zero_var cfg hi hl hs Z Z']
    · have h0 : cfg.n_weeks ≤ 0 := by omega
      rw [run_single_simulation_none cfg Z h0, run_single_simulation_none cfg Z' h0]
  · intro Z t ht w hw
    have hpos : 1 ≤ cfg.n_weeks := by
      by_contra hc
      rw [run_single_simulation_none cfg Z (by omega)] at ht
      exact Option.noConfusion ht
    rw [run_single_simulation_eq cfg Z hpos] at ht
    have htt := Option.some.inj ht
    subst htt
    rw [trajOf_isa cfg Z w hw, isaAt_zero_stdev cfg hi Z w]

theorem finalBalance_map_range (g : ℕ → ℝ) (n : ℕ) (h : 0 < n) :
    finalBalance ((List.range n).map g) = g (n - 1) := by
  rw [finalBalance, List.getLast?_eq_getElem?, List.length_map, List.length_range,
    List.getElem?_map, List.getElem?_range (by omega)]
  rfl

theorem listMean_const (vals : List ℝ) (c : ℝ) (h : 1 ≤ vals.length)
    (hc : ∀ v ∈ vals, v = c) : listMean vals = c := by
  have hn : (0 : ℝ) < (vals.length : ℝ) := by exact_mod_cast h
  rw [listMean, List.sum_eq_card_nsmul vals c hc, nsmul_eq_mul]
  field_simp

theorem savingsAt_cfg7 (Z : DrawStreams) : ∀ w, savingsAt cfg7 Z w = 1000 := by
  intro w
  induction w with
  | zero => rfl
  | succ w ih => rw [savingsAt, ih]; norm_num [cfg7, normalDraw]

theorem isaAt_cfg7 (Z : DrawStreams) : ∀ w, isaAt cfg7 Z w = 1000 := by
  intro w
  induction w with
  | zero => rfl
  | succ w ih => rw [isaAt, ih]; norm_num [cfg7, normalDraw]

theorem lisaAt_cfg7 (Z : DrawStreams) : ∀ w, lisaAt cfg7 Z w = 1000 := by
  intro w
  induction w with
  | zero => rfl
  | succ w ih => rw [lisaAt, ih]; norm_num [cfg7, normalDraw]

/-- C7: in the concrete scenario (initial balances 100, 1000, 1000, 1000,
every rate, payment, mean, standard deviation and inflow zero, five weeks)
every account's trajectory is constant at its initial value for all five
weeks, and the mean of the ensemble's grand-total final balances is exactly
3100 for any number of runs at least 1. -/
theorem claim_C7_concrete_scenario :
    (∀ (Z : DrawStreams) (t : Trajectory), run_single_simulation cfg7 Z = some t →
      ∀ w < 5, t.savings_account[w]? = some 1000 ∧ t.current_account[w]? = some 100 ∧
        t.isa[w]? = some 1000 ∧ t.lisa[w]? = some 1000) ∧
    (∀ results : List Trajectory, 1 ≤ results.length →
      (∀ t ∈ results, ∃ Z, run_single_simulation cfg7 Z = some t) →
      listMean (total_final results) = 3100) := by
  have hpos : (1 : ℤ) ≤ cfg7.n_weeks := by norm_num [cfg7]
  constructor
  · intro Z t ht w hw
    rw [run_single_simulation_eq cfg7 Z hpos] at ht
    have htt := Option.some.inj ht
    subst htt
    have hw5 : w < cfg7.n_weeks.toNat := hw
    refine ⟨?_, ?_, ?_, ?_⟩
    · rw [trajOf_savings cfg7 Z w hw5, savingsAt_cfg7 Z w]
    · rw [trajOf_current cfg7 Z w hw5, currentAt_eq]; rfl
    · rw [trajOf_isa cfg7 Z w hw5, isaAt_cfg7 Z w]
    · rw [trajOf_lisa cfg7 Z w hw5, lisaAt_cfg7 Z w]
  · intro results hlen hruns
    apply listMean_const _ _ (by rw [total_final, List.length_map]; exact hlen)
    intro v hv
    rw [total_final, List.mem_map] at hv
    obtain ⟨t, htm, rfl⟩ := hv
    obtain ⟨Z, hZ⟩ := hruns t htm
    rw [run_single_simulation_eq cfg7 Z hpos] at hZ
    have htt := Option.some.inj hZ
    subst htt
    rw [trajOf]
    rw [finalBalance_map_range _ _ (by norm_num [cfg7]), finalBalance_map_range _ _ (by norm_num [cfg7]),
      finalBalance_map_range _ _ (by norm_num [cfg7]), finalBalance_map_range _ _ (by norm_num [cfg7]),
      savingsAt_cfg7, currentAt_eq, isaAt_cfg7, lisaAt_cfg7]
    norm_num [cfg7]

theorem fracBelow_bounds (vals : List ℝ) (ref : ℝ) (h : 1 ≤ vals.length) :
    0 ≤ fracBelow vals ref ∧ fracBelow vals ref ≤ 1 := by
  have hn : (0 : ℝ) < (vals.length : ℝ) := by exact_mod_cast h
  constructor
  · exact div_nonneg (by positivity) (by positivity)
  · rw [fracBelow, div_le_one hn]
    exact_mod_cast List.length_filter_le _ _

theorem fracBelow_map (f : Trajectory → ℝ) (l : List Trajectory) (ref : ℝ) :
    fracBelow (l.map f) ref =
      ((l.filter fun t => decide (f t < ref)).length : ℝ) / (l.length : ℝ) := by
  rw [fracBelow, List.filter_map, List.length_map, List.length_map]
  rfl

/-- C8: for any ensemble of at least one run, the fraction of runs whose
final combined value lies strictly below the reference is between 0 and 1
and equals the count of qualifying runs divided by the number of runs, for
both combined distributions: current plus savings against reference 0, and
grand total against the sum of all four initial balances. -/
theorem claim_C8_fraction (cfg : SimConfig) (results : List Trajectory)
    (h : 1 ≤ results.length) :
    (0 ≤ fracBelow (current_and_savings_final results) 0 ∧
     fracBelow (current_and_savings_final results) 0 ≤ 1 ∧
     fracBelow (current_and_savings_final results) 0 =
       ((results.filter fun t =>
           decide (finalBalance t.savings_account + finalBalance t.current_account < 0)).length : ℝ) /
         (results.length : ℝ)) ∧
    (0 ≤ fracBelow (total_final results) (total_start cfg) ∧
     fracBelow (total_final results) (total_start cfg) ≤ 1 ∧
     fracBelow (total_final results) (total_start cfg) =
       ((results.filter fun t =>
           decide (finalBalance t.savings_account + finalBalance t.current_account +
             finalBalance t.isa + finalBalance t.lisa < total_start cfg)).length : ℝ) /
         (results.length : ℝ)) := by
  have h1 : 1 ≤ (current_and_savings_final results).length := by
    rw [current_and_savings_final, List.length_map]; exact h
  have h2 : 1 ≤ (total_final results).length := by
    rw [total_final, List.length_map]; exact h
  obtain ⟨a1, a2⟩ := fracBelow_bounds _ 0 h1
  obtain ⟨b1, b2⟩ := fracBelow_bounds _ (total_start cfg) h2
  exact ⟨⟨a1, a2, fracBelow_map _ _ _⟩, ⟨b1, b2, fracBelow_map _ _ _⟩⟩

theorem claim_C1_witness :
    (trajOf cfgW Z0).savings_account[1]? = some
      ((savingsAt cfgW Z0 0 + cfgW.annual_inflow / 52 -
          normalDraw cfgW.weekly_spendings_mean cfgW.weekly_spendings_stdev (Z0.zs 1)) +
       (savingsAt cfgW Z0 0 + cfgW.annual_inflow / 52 -
          normalDraw cfgW.weekly_spendings_mean cfgW.weekly_spendings_stdev (Z0.zs 1)) *
         (cfgW.savings_account_interest / 100) / 52) :=
  claim_C1_savings_update cfgW Z0 1 (by decide) le_rfl (by decide)
    (trajOf cfgW Z0) (run_single_simulation_eq cfgW Z0 (by decide))
    (savingsAt cfgW Z0 0) (trajOf_savings cfgW Z0 0 (by decide))

theorem claim_C2_witness :
    (trajOf cfgW Z0).isa[1]? = some
      ((isaAt cfgW Z0 0 + cfgW.isa_weekly_payment) +
       (isaAt cfgW Z0 0 + cfgW.isa_weekly_payment) *
         normalDraw (cfgW.isa_mean / 100 / 52) (cfgW.isa_stdev / 100 / Real.sqrt 52) (Z0.zi 1)) :=
  claim_C2_isa_update cfgW Z0 1 (by decide) le_rfl (by decide)
    (trajOf cfgW Z0) (run_single_simulation_eq cfgW Z0 (by decide))
    (isaAt cfgW Z0 0) (trajOf_isa cfgW Z0 0 (by decide))

theorem claim_C3_witness :
    (trajOf cfgW Z0).lisa[1]? = some
      ((lisaAt cfgW Z0 0 + cfgW.lisa_weekly_payment * 1.25) +
       (lisaAt cfgW Z0 0 + cfgW.lisa_weekly_payment * 1.25) *
         normalDraw (cfgW.lisa_mean / 100 / 52) (cfgW.lisa_stdev / 100 / Real.sqrt 52) (Z0.zl 1)) :=
  claim_C3_lisa_update cfgW Z0 1 (by decide) le_rfl (by decide)
    (trajOf cfgW Z0) (run_single_simulation_eq cfgW Z0 (by decide))
    (lisaAt cfgW Z0 0) (trajOf_lisa cfgW Z0 0 (by decide))

theorem claim_C4_witness :
    (trajOf cfgW Z0).current_account[51]? = some cfgW.current_account_balance_now :=
  claim_C4_current_invariant cfgW Z0 (by decide)
    (trajOf cfgW Z0) (run_single_simulation_eq cfgW Z0 (by decide)) 51 (by decide)

theorem claim_C5_witness :
    (trajOf cfgW Z0).savings_account[0]? = some cfgW.savings_account_balance_now ∧
    (trajOf cfgW Z0).current_account[0]? = some cfgW.current_account_balance_now ∧
    (trajOf cfgW Z0).isa[0]? = some cfgW.isa_balance_now ∧
    (trajOf cfgW Z0).lisa[0]? = some cfgW.lisa_balance_now :=
  claim_C5_week0 cfgW Z0 (by decide)
    (trajOf cfgW Z0) (run_single_simulation_eq cfgW Z0 (by decide))

theorem claim_C6_witness :
    (trajOf cfg6 Z0).isa[1]? = some (isaClosed cfg6 1) :=
  (claim_C6_zero_variance cfg6 rfl rfl rfl).2 Z0 (trajOf cfg6 Z0)
    (run_single_simulation_eq cfg6 Z0 (by decide)) 1 (by decide)

theorem claim_C7_witness :
    listMean (total_final [trajOf cfg7 Z0]) = 3100 :=
  claim_C7_concrete_scenario.2 [trajOf cfg7 Z0] (by simp)
    (by
      intro t htm
      rw [List.mem_singleton] at htm
      exact ⟨Z0, by rw [htm]; exact run_single_simulation_eq cfg7 Z0 (by decide)⟩)

theorem claim_C8_witness :
    fracBelow (current_and_savings_final [tW]) 0 ≤ 1 :=
  (claim_C8_fraction cfgW [tW] (by simp)).1.2.1

theorem claim_C9_witness : trajOf cfgW Z0 = trajOf cfgW Z0 :=
  claim_C9_determinism cfgW Z0 Z0 rfl (trajOf cfgW Z0) (trajOf cfgW Z0)
    (run_single_simulation_eq cfgW Z0 (by decide))
    (run_single_simulation_eq cfgW Z0 (by decide))

theorem claim_C10_witness : run_single_simulation cfgZeroWeeks Z0 = none :=
  claim_C10_nonpositive_weeks cfgZeroWeeks Z0 (by decide)

end FinancialProjections
